import Mathlib

/-!
Verification of the winerror-rs data model (src/lib.rs).

The library models Windows-style 32-bit status codes: a `Severity` and a
`Facility` classification plus a composite `ErrorCode` that packs severity,
facility and a numeric id into one 32-bit word.

Machine integers: Rust `i32` values are modelled as `Int` together with
conversions to and from their 32-bit two's-complement bit pattern (a `Nat`
below 2^32).  Bitwise operations (`&`, `|`, `<<`) act on the bit pattern and
reinterpret the result as a signed value, exactly as the corresponding `i32`
operations do; comparisons such as `masked > 0` are signed comparisons on the
reinterpreted value, again as in Rust.
-/

namespace Winerror

/-- Two's-complement bit pattern of a signed 32-bit value: the Euclidean
remainder modulo 2^32, as a natural number. -/
def toBits (x : Int) : Nat :=
  (x % (4294967296 : Int)).toNat

/-- Signed reinterpretation of a 32-bit pattern: patterns at or above 2^31
denote negative values. -/
def ofBits (n : Nat) : Int :=
  if n < 2147483648 then (n : Int) else (n : Int) - 4294967296

/-- Rust `i32` bitwise AND: AND of the bit patterns, reinterpreted as signed. -/
def i32Land (x y : Int) : Int :=
  ofBits (toBits x &&& toBits y)

/-- Rust `i32` bitwise OR: OR of the bit patterns, reinterpreted as signed. -/
def i32Lor (x y : Int) : Int :=
  ofBits (toBits x ||| toBits y)

/-- Rust `i32` left shift (shift amount below 32): shift of the bit pattern,
truncated to 32 bits and reinterpreted as signed. -/
def i32Shl (x : Int) (n : Nat) : Int :=
  ofBits ((toBits x <<< n) % 4294967296)

/-- Embeds `struct Severity` (src/lib.rs): a display name and a raw value. -/
structure Severity where
  name : String
  value : Int
  deriving DecidableEq

/-- Embeds `Severity::new`: unconditional constructor, stores both fields. -/
def Severity.new (name : String) (value : Int) : Severity :=
  { name := name, value := value }

/-- Embeds `struct Facility` (src/lib.rs). -/
structure Facility where
  name : String
  value : Int
  symbolic_name : String
  deriving DecidableEq

/-- Embeds `Facility::new`: unconditional constructor, stores all fields. -/
def Facility.new (name : String) (value : Int) (symbolic_name : String) : Facility :=
  { name := name, value := value, symbolic_name := symbolic_name }

/-- Embeds `enum ErrorCodeMemberError` (src/lib.rs). -/
inductive ErrorCodeMemberError where
  | WrongId (value : Int)
  | WrongSeverity (value : Int)
  | WrongFacility (value : Int)
  deriving DecidableEq

/-- Embeds `struct ErrorCode` (src/lib.rs). -/
structure ErrorCode where
  id : Int
  severity : Int
  facility : Int
  symbolic_name : String
  message : List String
  deriving DecidableEq

instance {ε α : Type} [DecidableEq ε] [DecidableEq α] : DecidableEq (Except ε α) :=
  fun a b =>
    match a, b with
    | Except.error e, Except.error f =>
        if h : e = f then isTrue (by rw [h])
        else isFalse (by intro hh; injection hh; contradiction)
    | Except.ok x, Except.ok y =>
        if h : x = y then isTrue (by rw [h])
        else isFalse (by intro hh; injection hh; contradiction)
    | Except.error _, Except.ok _ => isFalse (fun hh => Except.noConfusion hh)
    | Except.ok _, Except.error _ => isFalse (fun hh => Except.noConfusion hh)

/-- Embeds `ErrorCode::new` (src/lib.rs lines 139-164).  The three guards are
the source's `id & 0xFFFF0000 > 0`, `severity & 0xFFFFFFFC > 0` and
`facility & 0xFFFFF000 > 0`, where the mask literals are `i32` values with
the given bit patterns (the source allows overflowing literals) and `>` is
the signed comparison. -/
def ErrorCode.new (id severity facility : Int) (symbolic_name : String) :
    Except ErrorCodeMemberError ErrorCode :=
  if 0 < i32Land id (ofBits 0xFFFF0000) then
    Except.error (ErrorCodeMemberError.WrongId id)
  else if 0 < i32Land severity (ofBits 0xFFFFFFFC) then
    Except.error (ErrorCodeMemberError.WrongSeverity severity)
  else if 0 < i32Land facility (ofBits 0xFFFFF000) then
    Except.error (ErrorCodeMemberError.WrongFacility facility)
  else
    Except.ok { id := id, severity := severity, facility := facility,
                symbolic_name := symbolic_name, message := [] }

/-- Embeds `ErrorCode::set_message` (src/lib.rs lines 182-186): pushes each
supplied line, in order, onto the stored message vector. -/
def ErrorCode.set_message (c : ErrorCode) (message : List String) : ErrorCode :=
  message.foldl (fun acc line => { acc with message := acc.message ++ [line] }) c

/-- Embeds the accessor `ErrorCode::message` (src/lib.rs lines 188-190): the
slice `&self.message[0..self.message.len()]`. -/
def ErrorCode.message' (c : ErrorCode) : List String :=
  (c.message.drop 0).take (c.message.length - 0)

/-- Embeds `ErrorCode::value` (src/lib.rs lines 192-194):
`(self.severity << 30) | (self.facility << 16) | self.id` over `i32`. -/
def ErrorCode.value (c : ErrorCode) : Int :=
  i32Lor (i32Lor (i32Shl c.severity 30) (i32Shl c.facility 16)) c.id

/-! Basic facts about the bit-pattern conversions. -/

theorem toBits_ofBits {n : Nat} (h : n < 4294967296) : toBits (ofBits n) = n := by
  unfold toBits ofBits
  split <;> omega

theorem toBits_nonneg {x : Int} (h0 : 0 ≤ x) (h1 : x < 4294967296) :
    toBits x = x.toNat := by
  unfold toBits
  omega

theorem ofBits_neg_iff {n : Nat} (h : n < 4294967296) :
    ofBits n < 0 ↔ 2147483648 ≤ n := by
  unfold ofBits
  split <;> omega

/-- A value below 2^k has empty bitwise AND with any mask divisible by 2^k. -/
theorem land_eq_zero_of_disjoint {a m : Nat} (k : Nat) (ha : a < 2 ^ k)
    (hm : m % 2 ^ k = 0) : a &&& m = 0 := by
  apply Nat.eq_of_testBit_eq
  intro i
  simp only [Nat.testBit_and, Nat.zero_testBit]
  rcases Nat.lt_or_ge i k with hik | hik
  · have hmi : m.testBit i = false := by
      have h2 : (m % 2 ^ k).testBit i = (decide (i < k) && m.testBit i) :=
        Nat.testBit_mod_two_pow m k i
      rw [hm, Nat.zero_testBit, decide_eq_true hik, Bool.true_and] at h2
      exact h2.symm
    simp [hmi]
  · have hai : a.testBit i = false :=
      Nat.testBit_lt_two_pow
        (Nat.lt_of_lt_of_le ha (Nat.pow_le_pow_right (by norm_num) hik))
    simp [hai]

/-! The three validation guards of `ErrorCode::new` pass on inputs inside the
documented ranges. -/

theorem id_check_pass {id : Int} (h0 : 0 ≤ id) (h1 : id ≤ 65535) :
    i32Land id (ofBits 0xFFFF0000) = 0 := by
  unfold i32Land
  rw [toBits_ofBits (by norm_num), toBits_nonneg h0 (by omega),
    land_eq_zero_of_disjoint 16 (by omega) (by norm_num)]
  simp [ofBits]

theorem sev_check_pass {sev : Int} (h0 : 0 ≤ sev) (h1 : sev ≤ 3) :
    i32Land sev (ofBits 0xFFFFFFFC) = 0 := by
  unfold i32Land
  rw [toBits_ofBits (by norm_num), toBits_nonneg h0 (by omega),
    land_eq_zero_of_disjoint 2 (by omega) (by norm_num)]
  simp [ofBits]

theorem fac_check_pass {fac : Int} (h0 : 0 ≤ fac) (h1 : fac ≤ 4095) :
    i32Land fac (ofBits 0xFFFFF000) = 0 := by
  unfold i32Land
  rw [toBits_ofBits (by norm_num), toBits_nonneg h0 (by omega),
    land_eq_zero_of_disjoint 12 (by omega) (by norm_num)]
  simp [ofBits]

/-- On fields inside the documented ranges, the constructor succeeds and
returns the record with the supplied fields and an empty message. -/
theorem new_ok_of_valid {id sev fac : Int} (s : String)
    (hid0 : 0 ≤ id) (hid1 : id ≤ 65535) (hsev0 : 0 ≤ sev) (hsev1 : sev ≤ 3)
    (hfac0 : 0 ≤ fac) (hfac1 : fac ≤ 4095) :
    ErrorCode.new id sev fac s = Except.ok ⟨id, sev, fac, s, []⟩ := by
  unfold ErrorCode.new
  rw [id_check_pass hid0 hid1, sev_check_pass hsev0 hsev1,
    fac_check_pass hfac0 hfac1]
  norm_num

/-- Whenever the constructor succeeds, the result is the record holding the
supplied fields with an empty message. -/
theorem new_ok_inv {id sev fac : Int} {s : String} {c : ErrorCode}
    (h : ErrorCode.new id sev fac s = Except.ok c) :
    c = ⟨id, sev, fac, s, []⟩ := by
  unfold ErrorCode.new at h
  split at h
  · exact Except.noConfusion h
  · split at h
    · exact Except.noConfusion h
    · split at h
      · exact Except.noConfusion h
      · injection h with h'
        exact h'.symm

/-- The packed word is the arithmetic sum of the shifted fields: the three
bit fields are disjoint. -/
theorem word_eq_add (idN sevN facN : Nat) (hid : idN < 65536) (hfac : facN < 4096) :
    ((sevN <<< 30) ||| (facN <<< 16)) ||| idN =
      1073741824 * sevN + 65536 * facN + idN := by
  have p30 : (2 : Nat) ^ 30 = 1073741824 := by norm_num
  have p16 : (2 : Nat) ^ 16 = 65536 := by norm_num
  have h1 : (2 : Nat) ^ 16 * facN + idN = 2 ^ 16 * facN ||| idN :=
    Nat.mul_add_lt_is_or (by rw [p16]; exact hid) facN
  have hS : (2 : Nat) ^ 16 * facN + idN < 2 ^ 30 := by
    rw [p16, p30]; omega
  have h2 : (2 : Nat) ^ 30 * sevN + (2 ^ 16 * facN + idN) =
      2 ^ 30 * sevN ||| (2 ^ 16 * facN + idN) :=
    Nat.mul_add_lt_is_or hS sevN
  rw [Nat.shiftLeft_eq, Nat.shiftLeft_eq, Nat.mul_comm sevN, Nat.mul_comm facN,
    Nat.or_assoc, ← h1, ← h2, p30, p16]
  omega

theorem word_lt {idN sevN facN : Nat} (hid : idN < 65536) (hsev : sevN < 4)
    (hfac : facN < 4096) :
    ((sevN <<< 30) ||| (facN <<< 16)) ||| idN < 4294967296 := by
  rw [word_eq_add idN sevN facN hid hfac]
  omega

/-- On fields inside the documented ranges, `value()` is the signed
reinterpretation of the packed 32-bit word; no truncation occurs in the
intermediate i32 operations. -/
theorem value_eq_ofBits {id sev fac : Int} (s : String) (msg : List String)
    (hid0 : 0 ≤ id) (hid1 : id ≤ 65535) (hsev0 : 0 ≤ sev) (hsev1 : sev ≤ 3)
    (hfac0 : 0 ≤ fac) (hfac1 : fac ≤ 4095) :
    ErrorCode.value ⟨id, sev, fac, s, msg⟩ =
      ofBits (((sev.toNat <<< 30) ||| (fac.toNat <<< 16)) ||| id.toNat) := by
  have p30 : (2 : Nat) ^ 30 = 1073741824 := by norm_num
  have p16 : (2 : Nat) ^ 16 = 65536 := by norm_num
  have hA : sev.toNat <<< 30 < 4294967296 := by
    rw [Nat.shiftLeft_eq, p30]; omega
  have hB : fac.toNat <<< 16 < 4294967296 := by
    rw [Nat.shiftLeft_eq, p16]; omega
  have hAB : (sev.toNat <<< 30) ||| (fac.toNat <<< 16) < 4294967296 := by
    have h32 : (4294967296 : Nat) = 2 ^ 32 := by norm_num
    rw [h32] at hA hB ⊢
    exact Nat.or_lt_two_pow hA hB
  have e1 : i32Shl sev 30 = ofBits (sev.toNat <<< 30) := by
    unfold i32Shl
    rw [toBits_nonneg hsev0 (by omega), Nat.mod_eq_of_lt hA]
  have e2 : i32Shl fac 16 = ofBits (fac.toNat <<< 16) := by
    unfold i32Shl
    rw [toBits_nonneg hfac0 (by omega), Nat.mod_eq_of_lt hB]
  have e3 : i32Lor (ofBits (sev.toNat <<< 30)) (ofBits (fac.toNat <<< 16)) =
      ofBits ((sev.toNat <<< 30) ||| (fac.toNat <<< 16)) := by
    unfold i32Lor
    rw [toBits_ofBits hA, toBits_ofBits hB]
  have e4 : i32Lor (ofBits ((sev.toNat <<< 30) ||| (fac.toNat <<< 16))) id =
      ofBits (((sev.toNat <<< 30) ||| (fac.toNat <<< 16)) ||| id.toNat) := by
    unfold i32Lor
    rw [toBits_ofBits hAB, toBits_nonneg hid0 (by omega)]
  show i32Lor (i32Lor (i32Shl sev 30) (i32Shl fac 16)) id = _
  rw [e1, e2, e3, e4]

/-- Bit pattern of `value()` on fields inside the documented ranges. -/
theorem value_toBits {id sev fac : Int} (s : String) (msg : List String)
    (hid0 : 0 ≤ id) (hid1 : id ≤ 65535) (hsev0 : 0 ≤ sev) (hsev1 : sev ≤ 3)
    (hfac0 : 0 ≤ fac) (hfac1 : fac ≤ 4095) :
    toBits (ErrorCode.value ⟨id, sev, fac, s, msg⟩) =
      ((sev.toNat <<< 30) ||| (fac.toNat <<< 16)) ||| id.toNat := by
  rw [value_eq_ofBits s msg hid0 hid1 hsev0 hsev1 hfac0 hfac1]
  exact toBits_ofBits (word_lt (by omega) (by omega) (by omega))

/-- The push loop of `set_message` appends the supplied lines, in order, to
the stored message sequence. -/
theorem set_message_eq (c : ErrorCode) (ls : List String) :
    c.set_message ls = { c with message := c.message ++ ls } := by
  induction ls generalizing c with
  | nil => simp [ErrorCode.set_message]
  | cons l ls ih =>
    show ErrorCode.set_message { c with message := c.message ++ [l] } ls = _
    rw [ih]
    simp

/-- The accessor `message()` returns the whole stored sequence. -/
theorem message_eq (c : ErrorCode) : ErrorCode.message' c = c.message := by
  simp [ErrorCode.message']

/-! Claim theorems. -/

/-- C1: for every id in [0, 0xFFFF], severity in [0, 3] and facility in
[0, 0xFFF] and any string, `ErrorCode::new` succeeds, the bit pattern of
`value()` is the 32-bit word `(severity << 30) | (facility << 16) | id`, and
id, severity and facility are each recovered from that word by the inverse
masking and shifting. -/
theorem C1_roundtrip_packing (id sev fac : Int) (s : String)
    (hid : 0 ≤ id ∧ id ≤ 0xFFFF) (hsev : 0 ≤ sev ∧ sev ≤ 3)
    (hfac : 0 ≤ fac ∧ fac ≤ 0xFFF) :
    ErrorCode.new id sev fac s = Except.ok ⟨id, sev, fac, s, []⟩ ∧
    toBits (ErrorCode.value ⟨id, sev, fac, s, []⟩) =
      ((sev.toNat <<< 30) ||| (fac.toNat <<< 16)) ||| id.toNat ∧
    ((toBits (ErrorCode.value ⟨id, sev, fac, s, []⟩) &&& 0xFFFF : Nat) : Int) = id ∧
    (((toBits (ErrorCode.value ⟨id, sev, fac, s, []⟩) >>> 16) &&& 0xFFF : Nat) : Int) = fac ∧
    (((toBits (ErrorCode.value ⟨id, sev, fac, s, []⟩) >>> 30) &&& 3 : Nat) : Int) = sev := by
  obtain ⟨hid0, hid1⟩ := hid
  obtain ⟨hsev0, hsev1⟩ := hsev
  obtain ⟨hfac0, hfac1⟩ := hfac
  have hv := value_toBits s [] hid0 (by omega) hsev0 hsev1 hfac0 (by omega)
  have hw := word_eq_add id.toNat sev.toNat fac.toNat (by omega) (by omega)
  have hand16 : ∀ x : Nat, x &&& 65535 = x % 65536 := fun x => by
    have h := Nat.and_pow_two_sub_one_eq_mod x 16
    norm_num at h
    exact h
  have hand12 : ∀ x : Nat, x &&& 4095 = x % 4096 := fun x => by
    have h := Nat.and_pow_two_sub_one_eq_mod x 12
    norm_num at h
    exact h
  have hand2 : ∀ x : Nat, x &&& 3 = x % 4 := fun x => by
    have h := Nat.and_pow_two_sub_one_eq_mod x 2
    norm_num at h
    exact h
  have hshr16 : ∀ x : Nat, x >>> 16 = x / 65536 := fun x => by
    have h := Nat.shiftRight_eq_div_pow x 16
    norm_num at h
    exact h
  have hshr30 : ∀ x : Nat, x >>> 30 = x / 1073741824 := fun x => by
    have h := Nat.shiftRight_eq_div_pow x 30
    norm_num at h
    exact h
  refine ⟨new_ok_of_valid s hid0 (by omega) hsev0 hsev1 hfac0 (by omega), hv, ?_, ?_, ?_⟩
  · rw [hv, hw, hand16]
    omega
  · rw [hv, hw, hshr16, hand12]
    omega
  · rw [hv, hw, hshr30, hand2]
    omega

/-- Witness for C1 at id 0xABCD, severity 3, facility 0x111. -/
theorem C1_roundtrip_packing_witness :
    ErrorCode.new 43981 3 273 "E_W" = Except.ok ⟨43981, 3, 273, "E_W", []⟩ ∧
    toBits (ErrorCode.value ⟨43981, 3, 273, "E_W", []⟩) =
      (((3 : Int).toNat <<< 30) ||| ((273 : Int).toNat <<< 16)) ||| (43981 : Int).toNat ∧
    ((toBits (ErrorCode.value ⟨43981, 3, 273, "E_W", []⟩) &&& 0xFFFF : Nat) : Int) = 43981 ∧
    (((toBits (ErrorCode.value ⟨43981, 3, 273, "E_W", []⟩) >>> 16) &&& 0xFFF : Nat) : Int) = 273 ∧
    (((toBits (ErrorCode.value ⟨43981, 3, 273, "E_W", []⟩) >>> 30) &&& 3 : Nat) : Int) = 3 :=
  C1_roundtrip_packing 43981 3 273 "E_W" (by decide) (by decide) (by decide)

/-- C2 (evaluation at the failing inputs): contrary to the claim, the
constructor accepts inputs whose masked bit pattern is negative as a signed
32-bit value, because each guard compares with `> 0` instead of `!= 0`:
an id, a severity, or a facility with the sign bit surviving the mask slips
through its range check. -/
theorem C2_code_evaluation :
    ErrorCode.new (-2147483648) 0 0 "X" =
      Except.ok ⟨-2147483648, 0, 0, "X", []⟩ ∧
    ErrorCode.new 0 (-1) 0 "X" = Except.ok ⟨0, -1, 0, "X", []⟩ ∧
    ErrorCode.new 0 0 (-2048) "X" = Except.ok ⟨0, 0, -2048, "X", []⟩ := by
  decide

/-- C3: the six documented validation boundary cases. -/
theorem C3_validation_boundaries :
    ErrorCode.new 0x10000 0 0 "X" =
      Except.error (ErrorCodeMemberError.WrongId 0x10000) ∧
    ErrorCode.new 0xFFFF 0 0 "X" = Except.ok ⟨0xFFFF, 0, 0, "X", []⟩ ∧
    ErrorCode.new 0 4 0 "X" =
      Except.error (ErrorCodeMemberError.WrongSeverity 4) ∧
    ErrorCode.new 0 3 0 "X" = Except.ok ⟨0, 3, 0, "X", []⟩ ∧
    ErrorCode.new 0 0 0x1000 "X" =
      Except.error (ErrorCodeMemberError.WrongFacility 0x1000) ∧
    ErrorCode.new 0 0 0xFFF "X" = Except.ok ⟨0, 0, 0xFFF, "X", []⟩ := by
  decide

/-- C4: the constructor checks id first, then severity, then facility, and
stops at the first failing check; in particular an input failing all three
checks reports WrongId. -/
theorem C4_first_failure_precedence (id sev fac : Int) (s : String) :
    (0 < i32Land id (ofBits 0xFFFF0000) →
      ErrorCode.new id sev fac s =
        Except.error (ErrorCodeMemberError.WrongId id)) ∧
    (¬ 0 < i32Land id (ofBits 0xFFFF0000) →
      0 < i32Land sev (ofBits 0xFFFFFFFC) →
        ErrorCode.new id sev fac s =
          Except.error (ErrorCodeMemberError.WrongSeverity sev)) ∧
    (¬ 0 < i32Land id (ofBits 0xFFFF0000) →
      ¬ 0 < i32Land sev (ofBits 0xFFFFFFFC) →
        0 < i32Land fac (ofBits 0xFFFFF000) →
          ErrorCode.new id sev fac s =
            Except.error (ErrorCodeMemberError.WrongFacility fac)) ∧
    ErrorCode.new 0x10000 4 0x1000 "X" =
      Except.error (ErrorCodeMemberError.WrongId 0x10000) := by
  refine ⟨?_, ?_, ?_, by decide⟩
  · intro h1
    unfold ErrorCode.new
    rw [if_pos h1]
  · intro h1 h2
    unfold ErrorCode.new
    rw [if_neg h1, if_pos h2]
  · intro h1 h2 h3
    unfold ErrorCode.new
    rw [if_neg h1, if_neg h2, if_pos h3]

/-- Witness for C4: an id failing its check yields WrongId. -/
theorem C4_first_failure_precedence_witness :
    ErrorCode.new 65536 4 4096 "Y" =
      Except.error (ErrorCodeMemberError.WrongId 65536) :=
  (C4_first_failure_precedence 65536 4 4096 "Y").1 (by decide)

/-- C5 (evaluation at the failing input): contrary to the claimed invariant,
the validated constructor produces an instance whose severity is -1, i.e.
with every bit above bit 1 set, because the severity guard compares the
masked value with `> 0` as a signed integer. -/
theorem C5_code_evaluation :
    Except.map ErrorCode.severity (ErrorCode.new 0 (-1) 0 "X") =
      Except.ok (-1) := by
  decide

/-- C6: a successfully constructed ErrorCode starts with an empty message,
and set_message appends the supplied lines, in order, to the existing
sequence without clearing prior content; appending line1 and then
line2, line3 to a fresh instance yields exactly those three lines. -/
theorem C6_message_accumulation (id sev fac : Int) (s : String) (c d : ErrorCode)
    (ls : List String) (h : ErrorCode.new id sev fac s = Except.ok c) :
    ErrorCode.message' c = [] ∧
    ErrorCode.message' (d.set_message ls) = ErrorCode.message' d ++ ls ∧
    ErrorCode.message' ((c.set_message ["line1"]).set_message ["line2", "line3"]) =
      ["line1", "line2", "line3"] := by
  have hc := new_ok_inv h
  subst hc
  refine ⟨by simp [message_eq], ?_, ?_⟩
  · rw [message_eq, message_eq, set_message_eq]
  · simp [message_eq, set_message_eq]

/-- Witness for C6 at a concrete construction. -/
theorem C6_message_accumulation_witness :
    ErrorCode.message' ⟨1, 2, 3, "E_X", []⟩ = [] ∧
    ErrorCode.message' (ErrorCode.set_message ⟨1, 2, 3, "E_X", ["line0"]⟩ ["a", "b"]) =
      ErrorCode.message' ⟨1, 2, 3, "E_X", ["line0"]⟩ ++ ["a", "b"] ∧
    ErrorCode.message'
        ((ErrorCode.set_message (ErrorCode.set_message ⟨1, 2, 3, "E_X", []⟩ ["line1"]))
          ["line2", "line3"]) =
      ["line1", "line2", "line3"] :=
  C6_message_accumulation 1 2 3 "E_X" ⟨1, 2, 3, "E_X", []⟩ ⟨1, 2, 3, "E_X", ["line0"]⟩
    ["a", "b"] (by decide)

/-- C7: every accessor of Severity, Facility and a successfully constructed
ErrorCode returns exactly the value supplied at construction. -/
theorem C7_accessor_fidelity (n : String) (v : Int) (n2 : String) (v2 : Int)
    (sn : String) (id sev fac : Int) (s : String) (c : ErrorCode)
    (h : ErrorCode.new id sev fac s = Except.ok c) :
    (Severity.new n v).name = n ∧ (Severity.new n v).value = v ∧
    (Facility.new n2 v2 sn).name = n2 ∧ (Facility.new n2 v2 sn).value = v2 ∧
    (Facility.new n2 v2 sn).symbolic_name = sn ∧
    c.id = id ∧ c.severity = sev ∧ c.facility = fac ∧ c.symbolic_name = s := by
  have hc := new_ok_inv h
  subst hc
  exact ⟨rfl, rfl, rfl, rfl, rfl, rfl, rfl, rfl, rfl⟩

/-- Witness for C7 at concrete constructions. -/
theorem C7_accessor_fidelity_witness :
    (Severity.new "Success" 0).name = "Success" ∧
    (Severity.new "Success" 0).value = 0 ∧
    (Facility.new "Null" 0 "FACILITY_NULL").name = "Null" ∧
    (Facility.new "Null" 0 "FACILITY_NULL").value = 0 ∧
    (Facility.new "Null" 0 "FACILITY_NULL").symbolic_name = "FACILITY_NULL" ∧
    ErrorCode.id ⟨1, 2, 3, "E_X", []⟩ = 1 ∧
    ErrorCode.severity ⟨1, 2, 3, "E_X", []⟩ = 2 ∧
    ErrorCode.facility ⟨1, 2, 3, "E_X", []⟩ = 3 ∧
    ErrorCode.symbolic_name ⟨1, 2, 3, "E_X", []⟩ = "E_X" :=
  C7_accessor_fidelity "Success" 0 "Null" 0 "FACILITY_NULL" 1 2 3 "E_X"
    ⟨1, 2, 3, "E_X", []⟩ (by decide)

/-- C8: set_message changes only the message field; id, severity, facility,
symbolic_name and hence value() are unchanged. -/
theorem C8_set_message_frame (c : ErrorCode) (ls : List String) :
    (c.set_message ls).id = c.id ∧
    (c.set_message ls).severity = c.severity ∧
    (c.set_message ls).facility = c.facility ∧
    (c.set_message ls).symbolic_name = c.symbolic_name ∧
    (c.set_message ls).value = c.value := by
  rw [set_message_eq]
  exact ⟨rfl, rfl, rfl, rfl, rfl⟩

/-- C9: set_message with an empty list of lines is the identity on the
whole ErrorCode value. -/
theorem C9_set_message_empty_identity (c : ErrorCode) : c.set_message [] = c :=
  rfl

/-- C10: for fields in the documented valid ranges, value() is negative as a
signed 32-bit integer exactly when severity is 2 or 3. -/
theorem C10_value_sign (id sev fac : Int) (s : String) (c : ErrorCode)
    (hid : 0 ≤ id ∧ id ≤ 0xFFFF) (hsev : 0 ≤ sev ∧ sev ≤ 3)
    (hfac : 0 ≤ fac ∧ fac ≤ 0xFFF)
    (h : ErrorCode.new id sev fac s = Except.ok c) :
    c.value < 0 ↔ (sev = 2 ∨ sev = 3) := by
  obtain ⟨hid0, hid1⟩ := hid
  obtain ⟨hsev0, hsev1⟩ := hsev
  obtain ⟨hfac0, hfac1⟩ := hfac
  have hc := new_ok_inv h
  subst hc
  rw [value_eq_ofBits s [] hid0 (by omega) hsev0 hsev1 hfac0 (by omega),
    ofBits_neg_iff (word_lt (by omega) (by omega) (by omega)),
    word_eq_add id.toNat sev.toNat fac.toNat (by omega) (by omega)]
  omega

/-- Witness for C10 at severity 3. -/
theorem C10_value_sign_witness :
    ErrorCode.value ⟨1, 3, 1, "E_X", []⟩ < 0 ↔ ((3 : Int) = 2 ∨ (3 : Int) = 3) :=
  C10_value_sign 1 3 1 "E_X" ⟨1, 3, 1, "E_X", []⟩ (by decide) (by decide) (by decide)
    (by decide)

end Winerror
